import Mathlib

/-!
Verification of pkg/controller/utils/utils.go (retrying mutator) and the
managedresources secret reconciler of gardener-resource-manager, as a
shallow embedding.  Store interactions (Get/List/Update/Patch/Create) are
modelled by per-attempt outcome functions; machine behaviour that the
claims depend on (attempt counts, error classification, marker state) is
tracked explicitly.
-/

namespace GRM

/-- Error kinds of the store and of the retry engine, mirroring the
apierrors classification used by utils.go plus the two engine-made errors
(wait.ErrWaitTimeout and ctx.Err()).  `other code` stands for any further
distinct store error. -/
inductive Err where
  | notFound
  | conflict
  | deadlineExceeded
  | canceled
  | other (code : Nat)
deriving DecidableEq, Repr

/-- Embeds apierrors.IsConflict as used by tryUpdate and retry.RetryOnConflict. -/
def isConflict : Err → Bool
  | .conflict => true
  | _ => false

/-- Embeds controllerutil.ContainsFinalizer: membership of a finalizer name
in the object's finalizer list. -/
def containsFinalizer (fins : List String) (name : String) : Bool :=
  fins.any (fun f => f = name)

/-- Embeds controllerutil.AddFinalizer: appends the name if absent. -/
def addFinalizer (fins : List String) (name : String) : List String :=
  if containsFinalizer fins name then fins else fins ++ [name]

/-- Embeds controllerutil.RemoveFinalizer: removes every occurrence,
preserving the order of the others. -/
def removeFinalizer (fins : List String) (name : String) : List String :=
  fins.filter (fun f => f ≠ name)

/-- Embeds the loop of exponentialBackoff (utils.go lines 181-205).  The Go
loop counter i is incremented twice per iteration: once by the for
statement and once by the extra increment at the end of the body, so we
track the remaining budget r = backoff.Steps - i, which shrinks by two per
iteration (the r = 1 case inlines the following guard failure).  `cond a`
is the result of the a-th condition() call; `ctxDone a` is the a-th
non-blocking select on ctx.Done(), executed between an unsuccessful
condition call and the following time.Sleep — the sleep itself cannot be
interrupted.  Returns the Go function's error result (none = nil) together
with the number of condition() calls performed.  Sleep durations (Duration,
Factor, Jitter) influence no observable modelled here and are not tracked. -/
def expBackoffLoop (cond : Nat → Bool × Option Err) (ctxDone : Nat → Bool) :
    Nat → Nat → Option Err × Nat
  | 0, a => (some .deadlineExceeded, a)
  | 1, a =>
    let p := cond a
    if p.2.isSome || p.1 then (p.2, a + 1)
    else if ctxDone a then (some .canceled, a + 1)
    else (some .deadlineExceeded, a + 1)
  | r + 2, a =>
    let p := cond a
    if p.2.isSome || p.1 then (p.2, a + 1)
    else if ctxDone a then (some .canceled, a + 1)
    else expBackoffLoop cond ctxDone r (a + 1)

/-- Embeds exponentialBackoff (utils.go lines 181-205): the loop entered
with i = 0, hence remaining budget backoff.Steps. -/
def exponentialBackoff (cond : Nat → Bool × Option Err) (ctxDone : Nat → Bool)
    (steps : Nat) : Option Err × Nat :=
  expBackoffLoop cond ctxDone steps 0

/-- Trace of one attempt of the closure passed by tryUpdate (utils.go lines
157-178): its wait.ConditionFunc result plus which of the caller-visible
actions ran. -/
structure Attempt where
  ok : Bool
  err : Option Err
  ranTransform : Bool
  calledUpdate : Bool
deriving DecidableEq, Repr

/-- Embeds one execution of the closure in tryUpdate (utils.go lines
157-178): Get, DeepCopy snapshot, transform, reflect.DeepEqual no-op check
(`changed` is the negation of the DeepEqual outcome), then updateFunc with
apierrors.IsConflict classification. -/
def tryUpdateAttempt (getErr : Option Err) (transformErr : Option Err)
    (changed : Bool) (updateErr : Option Err) : Attempt :=
  match getErr with
  | some e => ⟨false, some e, false, false⟩
  | none =>
    match transformErr with
    | some e => ⟨false, some e, true, false⟩
    | none =>
      if !changed then ⟨true, none, true, false⟩
      else
        match updateErr with
        | some e =>
          if isConflict e then ⟨false, none, true, true⟩
          else ⟨false, some e, true, true⟩
        | none => ⟨true, none, true, true⟩

/-- The wait.ConditionFunc view of tryUpdate's closure, indexed by attempt
number. -/
def tryUpdateCond (getErr transformErr : Nat → Option Err) (changed : Nat → Bool)
    (updateErr : Nat → Option Err) (a : Nat) : Bool × Option Err :=
  let t := tryUpdateAttempt (getErr a) (transformErr a) (changed a) (updateErr a)
  (t.ok, t.err)

/-- Embeds tryUpdate (utils.go lines 154-179), the common body of TryUpdate
(updateFunc = c.Update) and TryUpdateStatus (updateFunc = c.Status().Update);
which of the two writes is targeted only changes where `updateErr` comes
from.  Per-attempt store outcomes are the parameters. -/
def tryUpdate (getErr transformErr : Nat → Option Err) (changed : Nat → Bool)
    (updateErr : Nat → Option Err) (ctxDone : Nat → Bool) (steps : Nat) :
    Option Err × Nat :=
  exponentialBackoff (tryUpdateCond getErr transformErr changed updateErr) ctxDone steps

/-- retry.DefaultRetry.Steps of k8s.io/client-go/util/retry, the budget
used by EnsureFinalizer and DeleteFinalizer (utils.go lines 51 and 71). -/
def defaultRetrySteps : Nat := 5

/-- Embeds retry.OnError of k8s.io/client-go/util/retry as invoked through
retry.RetryOnConflict by EnsureFinalizer and DeleteFinalizer: the wrapped
function runs up to the step budget, retriable (conflict) errors continue
the loop while being remembered as lastErr, any other error or success
returns at once, and on budget exhaustion wait.ErrWaitTimeout is replaced
by lastErr.  The function threads the in-memory object state σ (the Go
closure mutates `obj`); the result carries the error, the number of calls
of the wrapped function, and the final object state. -/
def onErrorLoop {σ : Type} (fn : Nat → σ → Option Err × σ) :
    Nat → Nat → Option Err → σ → Option Err × Nat × σ
  | 0, a, lastErr, s => (lastErr, a, s)
  | steps + 1, a, _, s =>
    match fn a s with
    | (none, t) => (none, a + 1, t)
    | (some e, t) =>
      if isConflict e then onErrorLoop fn steps (a + 1) (some e) t
      else (some e, a + 1, t)

/-- Embeds retry.RetryOnConflict(retry.DefaultRetry, fn): OnError with the
conflict predicate and a five-step budget, starting with lastErr = nil. -/
def retryOnConflict {σ : Type} (fn : Nat → σ → Option Err × σ) (s : σ) :
    Option Err × Nat × σ :=
  onErrorLoop fn defaultRetrySteps 0 none s

/-- Embeds one execution of the closure in EnsureFinalizer (utils.go lines
51-65).  `getRes a` is the outcome of the a-th Get of the object: on
success the fetched finalizer list overwrites the in-memory object; on
error the object keeps its previous state.  If the fetched list already
contains the finalizer the closure succeeds without writing; otherwise
AddFinalizer runs and the merge patch's outcome `patchErr a` is returned. -/
def ensureFinalizerBody (name : String) (getRes : Nat → Except Err (List String))
    (patchErr : Nat → Option Err) (a : Nat) (obj : List String) :
    Option Err × List String :=
  match getRes a with
  | .error e => (some e, obj)
  | .ok fins =>
    if containsFinalizer fins name then (none, fins)
    else (patchErr a, addFinalizer fins name)

/-- Embeds EnsureFinalizer (utils.go lines 50-66): the closure above under
retry.RetryOnConflict(retry.DefaultRetry, ...), with `obj` the caller's
in-memory finalizer list. -/
def EnsureFinalizer (name : String) (getRes : Nat → Except Err (List String))
    (patchErr : Nat → Option Err) (obj : List String) :
    Option Err × Nat × List String :=
  retryOnConflict (ensureFinalizerBody name getRes patchErr) obj

/-- Embeds one execution of the closure in DeleteFinalizer (utils.go lines
71-85).  A Get error passes through client.IgnoreNotFound: not-found is
swallowed (the in-memory object stays as it was), any other error returns.
Then, if the (possibly stale) object does not contain the finalizer the
closure succeeds without writing; otherwise RemoveFinalizer runs and the
merge patch's outcome is returned. -/
def deleteFinalizerBody (name : String) (getRes : Nat → Except Err (List String))
    (patchErr : Nat → Option Err) (a : Nat) (obj : List String) :
    Option Err × List String :=
  match getRes a with
  | .error e =>
    if e = .notFound then
      if containsFinalizer obj name then (patchErr a, removeFinalizer obj name)
      else (none, obj)
    else (some e, obj)
  | .ok fins =>
    if containsFinalizer fins name then (patchErr a, removeFinalizer fins name)
    else (none, fins)

/-- Embeds DeleteFinalizer (utils.go lines 70-86): the closure above under
retry.RetryOnConflict(retry.DefaultRetry, ...). -/
def DeleteFinalizer (name : String) (getRes : Nat → Except Err (List String))
    (patchErr : Nat → Option Err) (obj : List String) :
    Option Err × Nat × List String :=
  retryOnConflict (deleteFinalizerBody name getRes patchErr) obj

/-- controllerutil.OperationResult of TypedCreateOrUpdate: the tri-state
outcome {none, created, updated}. -/
inductive OpResult where
  | opNone
  | created
  | updated
deriving DecidableEq, Repr

/-- Outcome of scheme.New plus the client.Object cast in TypedCreateOrUpdate
(utils.go lines 101-111): a registered kind yielding a client.Object, a
registered kind that is no client.Object (the unsupported-type error path),
or an unregistered kind falling back to the unstructured object itself. -/
inductive SchemeNewRes where
  | typed
  | typedUnsupported
  | unregistered
deriving DecidableEq, Repr

/-- Full observable outcome of TypedCreateOrUpdate: the OperationResult,
the returned error, whether Create and Update were called, and the final
in-memory state of `obj`. -/
structure TCUOutcome (α : Type) where
  result : OpResult
  err : Option Err
  createCalled : Bool
  updateCalled : Bool
  obj : α
deriving DecidableEq, Repr

/-- Embeds TypedCreateOrUpdate (utils.go lines 98-146) over an abstract
object-state type α standing for the unstructured content.  `getRes` is
the Get outcome (fetched state or error); `convErr` the scheme.Convert
outcome on the typed path; `mutate` the caller's mutation as a function of
the current in-memory state (run on `obj0` in the not-found path, on the
fetched state otherwise — on the typed path the fetched state is copied
into obj before mutate, on the unstructured path Get already wrote into
obj); the deep-equality no-op check compares the pre-mutate snapshot with
the mutated state. -/
def TypedCreateOrUpdate {α : Type} [DecidableEq α] (schemeNew : SchemeNewRes)
    (getRes : Except Err α) (convErr : Option Err) (obj0 : α)
    (alwaysUpdate : Bool) (mutate : α → Except Err α)
    (createErr updateErr : Option Err) : TCUOutcome α :=
  match schemeNew with
  | .typedUnsupported => ⟨.opNone, some (.other 0), false, false, obj0⟩
  | sn =>
    match getRes with
    | .error .notFound =>
      match mutate obj0 with
      | .error e => ⟨.opNone, some e, false, false, obj0⟩
      | .ok m => ⟨.created, createErr, true, false, m⟩
    | .error e => ⟨.opNone, some e, false, false, obj0⟩
    | .ok fetched =>
      if sn = .typed ∧ convErr.isSome then
        ⟨.opNone, convErr, false, false, obj0⟩
      else
        let existing := fetched
        match mutate fetched with
        | .error e => ⟨.opNone, some e, false, false, fetched⟩
        | .ok m =>
          if !alwaysUpdate ∧ existing = m then
            ⟨.opNone, none, false, false, m⟩
          else
            ⟨.updated, updateErr, false, true, m⟩

/-- A ManagedResource (parent resource) as the secret reconciler sees it:
its namespace, its spec.class (nullable), and the names in spec.secretRefs. -/
structure ManagedResource where
  ns : String
  resourceClass : Option String
  secretRefs : List String
deriving DecidableEq, Repr

/-- The ClassFilter configuration: the class this controller is responsible
for and the finalizer (marker) name derived from it. -/
structure ClassFilter where
  resourceClass : String
  finalizerName : String
deriving DecidableEq, Repr

/-- Modelled from the spec: whether the filter makes the controller
responsible for a parent, the `p.Class == filter.Class` comparison of
section 4.2 (the ClassFilter implementation is absent from the sources). -/
def responsible (flt : ClassFilter) (mr : ManagedResource) : Bool :=
  mr.resourceClass = some flt.resourceClass

/-- Modelled from the spec: the membership decision of section 4.2,
`referenced = exists p in parents-in-namespace with the filter's class and
the object's name among its references`; the List call is namespace-scoped
(client.InNamespace), modelled by filtering the cluster-wide list. -/
def referenced (flt : ClassFilter) (ns name : String)
    (mrs : List ManagedResource) : Bool :=
  (mrs.filter (fun p => p.ns = ns)).any
    (fun p => responsible flt p && p.secretRefs.any (fun r => r = name))

/-- A reconcile.Result together with the returned error: requeue delay in
seconds (0 = none) and the error (none = nil). -/
structure ReconcileResult where
  requeueAfterSeconds : Nat
  err : Option Err
deriving DecidableEq, Repr

/-- Observable outcome of one SecretReconciler.Reconcile call: the result
returned to the dispatcher, the secret's finalizer list afterwards (the
fetched list when no write happened or the write failed), and whether a
marker write was attempted. -/
structure ReconcileOutcome where
  res : ReconcileResult
  finalizers : List String
  wrote : Bool
deriving DecidableEq, Repr

/-- Modelled from the spec: SecretReconciler.Reconcile of the
managedresources package, whose implementation is absent from the sources
(only secret_controller_test.go exercises it); follows the spec's section
4.2 state machine, consistent with that test.  Fetch the secret (`getRes`
carries its finalizer list): not-found is terminal success, other errors
are terminal failure.  List the ManagedResources in the secret's namespace
(`listRes`): error is terminal failure.  Compute `referenced` and add or
remove the filter's finalizer when absent or present respectively, the
single-attempt marker write having outcome `writeErr`; a failed write is
reported with a fixed five-second requeue delay. -/
def SecretReconcile (flt : ClassFilter) (ns name : String)
    (getRes : Except Err (List String))
    (listRes : Except Err (List ManagedResource))
    (writeErr : Option Err) : ReconcileOutcome :=
  match getRes with
  | .error .notFound => ⟨⟨0, none⟩, [], false⟩
  | .error e => ⟨⟨0, some e⟩, [], false⟩
  | .ok fins =>
    match listRes with
    | .error e => ⟨⟨0, some e⟩, fins, false⟩
    | .ok mrs =>
      let refd := referenced flt ns name mrs
      let present := containsFinalizer fins flt.finalizerName
      if refd && !present then
        match writeErr with
        | some e => ⟨⟨5, some e⟩, fins, true⟩
        | none => ⟨⟨0, none⟩, addFinalizer fins flt.finalizerName, true⟩
      else if !refd && present then
        match writeErr with
        | some e => ⟨⟨5, some e⟩, fins, true⟩
        | none => ⟨⟨0, none⟩, removeFinalizer fins flt.finalizerName, true⟩
      else ⟨⟨0, none⟩, fins, false⟩

/-! Helper lemmas. -/

theorem contains_addFinalizer (fins : List String) (n : String) :
    containsFinalizer (addFinalizer fins n) n = true := by
  unfold addFinalizer
  split
  · assumption
  · simp [containsFinalizer]

theorem contains_removeFinalizer (fins : List String) (n : String) :
    containsFinalizer (removeFinalizer fins n) n = false := by
  simp only [containsFinalizer, removeFinalizer]
  induction fins with
  | nil => rfl
  | cons f rest ih =>
    by_cases h : f = n <;> simp [h, ih]

theorem expBackoffLoop_count_ge (cond : Nat → Bool × Option Err)
    (ctxDone : Nat → Bool) : ∀ r a, a ≤ (expBackoffLoop cond ctxDone r a).2 := by
  intro r
  induction r using Nat.strong_induction_on with
  | _ r ih =>
    intro a
    match r with
    | 0 => simp [expBackoffLoop]
    | 1 =>
      simp only [expBackoffLoop]
      split
      · omega
      · split <;> omega
    | r + 2 =>
      simp only [expBackoffLoop]
      split
      · omega
      · split
        · omega
        · have := ih r (by omega) (a + 1)
          omega

theorem expBackoffLoop_count_pos (cond : Nat → Bool × Option Err)
    (ctxDone : Nat → Bool) (r a : Nat) (hr : 0 < r) :
    a + 1 ≤ (expBackoffLoop cond ctxDone r a).2 := by
  match r with
  | 1 =>
    simp only [expBackoffLoop]
    split
    · omega
    · split <;> omega
  | r + 2 =>
    simp only [expBackoffLoop]
    split
    · omega
    · split
      · omega
      · have := expBackoffLoop_count_ge cond ctxDone r (a + 1)
        omega

theorem expBackoffLoop_allConflict (cond : Nat → Bool × Option Err)
    (ctxDone : Nat → Bool) (hc : ∀ j, cond j = (false, none))
    (hd : ∀ j, ctxDone j = false) :
    ∀ r a, expBackoffLoop cond ctxDone r a
      = (some .deadlineExceeded, a + (r + 1) / 2) := by
  intro r
  induction r using Nat.strong_induction_on with
  | _ r ih =>
    intro a
    match r with
    | 0 => simp [expBackoffLoop]
    | 1 => simp [expBackoffLoop, hc, hd]
    | r + 2 =>
      simp only [expBackoffLoop, hc, hd, Option.isSome_none, Bool.or_self,
        Bool.false_eq_true, if_false]
      rw [ih r (by omega) (a + 1)]
      simp only [Prod.mk.injEq, true_and]
      omega

theorem expBackoffLoop_cancelAt (cond : Nat → Bool × Option Err)
    (ctxDone : Nat → Bool) (k : Nat) (hc : ∀ j, cond j = (false, none))
    (hd : ∀ j, ctxDone j = decide (k < j)) :
    ∀ r a, a ≤ k + 1 → 2 * (k + 1 - a) + 1 ≤ r →
      expBackoffLoop cond ctxDone r a = (some .canceled, k + 2) := by
  intro r
  induction r using Nat.strong_induction_on with
  | _ r ih =>
    intro a ha hr
    match r, hr with
    | 1, _ =>
      have hak : a = k + 1 := by omega
      subst hak
      simp [expBackoffLoop, hc, hd]
    | r + 2, _ =>
      by_cases hak : a = k + 1
      · subst hak
        simp [expBackoffLoop, hc, hd]
      · have hlt : ¬ (k < a) := by omega
        simp only [expBackoffLoop, hc, hd, Option.isSome_none, Bool.or_self,
          Bool.false_eq_true, if_false, decide_eq_true_eq, hlt]
        exact ih r (by omega) (a + 1) (by omega) (by omega)

theorem onErrorLoop_allConflict {σ : Type} (fn : Nat → σ → Option Err × σ)
    (hf : ∀ j t, (fn j t).1 = some .conflict) :
    ∀ steps a lastErr s, 0 < steps →
      (onErrorLoop fn steps a lastErr s).1 = some .conflict ∧
      (onErrorLoop fn steps a lastErr s).2.1 = a + steps := by
  intro steps
  induction steps with
  | zero => intro a lastErr s h; omega
  | succ n ih =>
    intro a lastErr s _
    rcases h : fn a s with ⟨e, t⟩
    have he : e = some Err.conflict := by
      have := hf a s
      rw [h] at this
      exact this
    subst he
    simp only [onErrorLoop, h, isConflict, if_true]
    match n with
    | 0 => simp [onErrorLoop]
    | n + 1 =>
      have := ih (a + 1) (some .conflict) t (by omega)
      refine ⟨this.1, ?_⟩
      rw [this.2]
      omega

/-! Claim theorems. -/

/-- Claim C2, counterexample: with a step budget of 2 and a transform whose
write attempt always results in Conflict, TransformAndUpdate performs only
one fetch-transform-write attempt, not two — the loop counter is
incremented twice per iteration (once by the for statement and once by the
stray increment at the end of the body), so the claimed exactly-steps
attempt count is false. -/
theorem exponentialBackoff_steps_counterexample :
    (tryUpdate (fun _ => none) (fun _ => none) (fun _ => true)
        (fun _ => some .conflict) (fun _ => false) 2).2 ≠ 2 := by
  decide

/-- Claim C2 (amended): for every backoff policy with step budget `steps`
and every transform whose write attempt always results in Conflict,
TransformAndUpdate performs exactly ⌈steps/2⌉ fetch-transform-write
attempts and then fails with the wait-timeout (DeadlineExceeded) error,
never more attempts and never a different error kind. -/
theorem tryUpdate_budgetExhaustion (getErr transformErr : Nat → Option Err)
    (changed : Nat → Bool) (updateErr : Nat → Option Err)
    (ctxDone : Nat → Bool) (steps : Nat)
    (hg : ∀ a, getErr a = none) (ht : ∀ a, transformErr a = none)
    (hch : ∀ a, changed a = true) (hu : ∀ a, updateErr a = some .conflict)
    (hd : ∀ a, ctxDone a = false) :
    tryUpdate getErr transformErr changed updateErr ctxDone steps
      = (some .deadlineExceeded, (steps + 1) / 2) := by
  have hc : ∀ j, tryUpdateCond getErr transformErr changed updateErr j
      = (false, none) := by
    intro j
    simp [tryUpdateCond, tryUpdateAttempt, hg, ht, hch, hu, isConflict]
  simpa [tryUpdate, exponentialBackoff]
    using expBackoffLoop_allConflict _ _ hc hd steps 0

theorem tryUpdate_budgetExhaustion_witness :
    tryUpdate (fun _ => none) (fun _ => none) (fun _ => true)
        (fun _ => some .conflict) (fun _ => false) 5
      = (some .deadlineExceeded, 3) :=
  tryUpdate_budgetExhaustion _ _ _ _ _ 5 (fun _ => rfl) (fun _ => rfl)
    (fun _ => rfl) (fun _ => rfl) (fun _ => rfl)

/-- Claim C4, counterexample: step budget 4, every attempt conflicting,
cancellation firing during the first backoff sleep (so every ctx check
after the first reports done).  The loop still performs a second
condition attempt (2 calls, not 1): time.Sleep is not interruptible and
the non-blocking select on ctx.Done() only runs again after the next
attempt, so the loop does not abort before starting the next attempt. -/
theorem exponentialBackoff_cancel_counterexample :
    (exponentialBackoff (fun _ => (false, none)) (fun j => decide (0 < j)) 4).2
      ≠ 1 := by
  decide

/-- Claim C4 (amended): if the cancellation signal fires during backoff
sleep number k (checks 0..k saw it unfired, later checks see it fired) and
every attempt results in Conflict, the loop completes that sleep, performs
one more attempt, and only then observes the cancellation and returns the
cancellation error — neither a Conflict nor a DeadlineExceeded error —
provided the step budget still admits that extra attempt (with the budget
exhausted first, the wait-timeout error is returned instead). -/
theorem exponentialBackoff_cancelDuringSleep (cond : Nat → Bool × Option Err)
    (ctxDone : Nat → Bool) (k steps : Nat)
    (hc : ∀ j, cond j = (false, none))
    (hd : ∀ j, ctxDone j = decide (k < j))
    (hs : 2 * (k + 1) + 1 ≤ steps) :
    exponentialBackoff cond ctxDone steps = (some .canceled, k + 2) := by
  simpa [exponentialBackoff]
    using expBackoffLoop_cancelAt cond ctxDone k hc hd steps 0 (by omega) (by omega)

theorem exponentialBackoff_cancelDuringSleep_witness :
    exponentialBackoff (fun _ => (false, none)) (fun j => decide (0 < j)) 4
      = (some .canceled, 2) :=
  exponentialBackoff_cancelDuringSleep _ _ 0 4 (fun _ => rfl) (fun _ => rfl)
    (by omega)

/-- Claim C5: if the transform leaves the fetched object deeply equal to
its pre-transform snapshot on the first attempt, TransformAndUpdate
succeeds on that attempt (result nil after exactly one attempt) and the
attempt never calls the store's write operation, so the store state is
left unchanged. -/
theorem tryUpdate_noopShortCircuit (getErr transformErr : Nat → Option Err)
    (changed : Nat → Bool) (updateErr : Nat → Option Err)
    (ctxDone : Nat → Bool) (steps : Nat) (hs : 0 < steps)
    (hg : getErr 0 = none) (ht : transformErr 0 = none)
    (hch : changed 0 = false) :
    tryUpdate getErr transformErr changed updateErr ctxDone steps = (none, 1) ∧
    (tryUpdateAttempt (getErr 0) (transformErr 0) (changed 0)
        (updateErr 0)).calledUpdate = false := by
  have hcond : tryUpdateCond getErr transformErr changed updateErr 0
      = (true, none) := by
    simp [tryUpdateCond, tryUpdateAttempt, hg, ht, hch]
  refine ⟨?_, by simp [tryUpdateAttempt, hg, ht, hch]⟩
  match steps, hs with
  | 1, _ => simp [tryUpdate, exponentialBackoff, expBackoffLoop, hcond]
  | s + 2, _ => simp [tryUpdate, exponentialBackoff, expBackoffLoop, hcond]

theorem tryUpdate_noopShortCircuit_witness :
    tryUpdate (fun _ => none) (fun _ => none) (fun _ => false)
        (fun _ => some .conflict) (fun _ => false) 5 = (none, 1) ∧
    (tryUpdateAttempt none none false (some .conflict)).calledUpdate = false :=
  tryUpdate_noopShortCircuit _ _ _ _ _ 5 (by omega) rfl rfl rfl

/-- Claim C6: outcome classification of each TransformAndUpdate attempt,
stated over the loop from any reachable state (remaining budget r,
attempt index a).  A Conflict write error continues the loop with the
budget reduced (and when the budget admits it the next attempt indeed
runs); any non-Conflict write error terminates immediately with that
error and no further attempt; a successful write terminates with success
immediately; a transform error terminates immediately with that error,
without the write being called on that attempt. -/
theorem tryUpdate_classification (getErr transformErr : Nat → Option Err)
    (changed : Nat → Bool) (updateErr : Nat → Option Err)
    (ctxDone : Nat → Bool) (r a : Nat) (e : Err) :
    (2 ≤ r → getErr a = none → transformErr a = none → changed a = true →
      updateErr a = some .conflict → ctxDone a = false →
      expBackoffLoop (tryUpdateCond getErr transformErr changed updateErr)
          ctxDone r a
        = expBackoffLoop (tryUpdateCond getErr transformErr changed updateErr)
            ctxDone (r - 2) (a + 1)) ∧
    (3 ≤ r → getErr a = none → transformErr a = none → changed a = true →
      updateErr a = some .conflict → ctxDone a = false →
      a + 2 ≤ (expBackoffLoop (tryUpdateCond getErr transformErr changed updateErr)
          ctxDone r a).2) ∧
    (1 ≤ r → getErr a = none → transformErr a = none → changed a = true →
      updateErr a = some e → isConflict e = false →
      expBackoffLoop (tryUpdateCond getErr transformErr changed updateErr)
          ctxDone r a = (some e, a + 1)) ∧
    (1 ≤ r → getErr a = none → transformErr a = none → changed a = true →
      updateErr a = none →
      expBackoffLoop (tryUpdateCond getErr transformErr changed updateErr)
          ctxDone r a = (none, a + 1)) ∧
    (1 ≤ r → getErr a = none → transformErr a = some e →
      expBackoffLoop (tryUpdateCond getErr transformErr changed updateErr)
          ctxDone r a = (some e, a + 1) ∧
      (tryUpdateAttempt (getErr a) (transformErr a) (changed a)
          (updateErr a)).calledUpdate = false) := by
  refine ⟨?_, ?_, ?_, ?_, ?_⟩
  · intro hr hg ht hch hu hd
    have hcond : tryUpdateCond getErr transformErr changed updateErr a
        = (false, none) := by
      simp [tryUpdateCond, tryUpdateAttempt, hg, ht, hch, hu, isConflict]
    match r, hr with
    | s + 2, _ => simp [expBackoffLoop, hcond, hd]
  · intro hr hg ht hch hu hd
    have hcond : tryUpdateCond getErr transformErr changed updateErr a
        = (false, none) := by
      simp [tryUpdateCond, tryUpdateAttempt, hg, ht, hch, hu, isConflict]
    match r, hr with
    | s + 3, _ =>
      have hnext := expBackoffLoop_count_pos
        (tryUpdateCond getErr transformErr changed updateErr) ctxDone (s + 1)
        (a + 1) (by omega)
      simp only [expBackoffLoop, hcond, Option.isSome_none, Bool.or_self,
        Bool.false_eq_true, if_false, hd]
      omega
  · intro hr hg ht hch hu hnc
    have hcond : tryUpdateCond getErr transformErr changed updateErr a
        = (false, some e) := by
      simp [tryUpdateCond, tryUpdateAttempt, hg, ht, hch, hu, hnc]
    match r, hr with
    | 1, _ => simp [expBackoffLoop, hcond]
    | s + 2, _ => simp [expBackoffLoop, hcond]
  · intro hr hg ht hch hu
    have hcond : tryUpdateCond getErr transformErr changed updateErr a
        = (true, none) := by
      simp [tryUpdateCond, tryUpdateAttempt, hg, ht, hch, hu]
    match r, hr with
    | 1, _ => simp [expBackoffLoop, hcond]
    | s + 2, _ => simp [expBackoffLoop, hcond]
  · intro hr hg ht
    have hcond : tryUpdateCond getErr transformErr changed updateErr a
        = (false, some e) := by
      simp [tryUpdateCond, tryUpdateAttempt, hg, ht]
    refine ⟨?_, by simp [tryUpdateAttempt, hg, ht]⟩
    match r, hr with
    | 1, _ => simp [expBackoffLoop, hcond]
    | s + 2, _ => simp [expBackoffLoop, hcond]

theorem tryUpdate_classification_witness :
    expBackoffLoop (tryUpdateCond (fun _ => none) (fun _ => none)
        (fun _ => true) (fun _ => some .conflict)) (fun _ => false) 4 0
      = expBackoffLoop (tryUpdateCond (fun _ => none) (fun _ => none)
          (fun _ => true) (fun _ => some .conflict)) (fun _ => false) 2 1 ∧
    0 + 2 ≤ (expBackoffLoop (tryUpdateCond (fun _ => none) (fun _ => none)
        (fun _ => true) (fun _ => some .conflict)) (fun _ => false) 4 0).2 ∧
    expBackoffLoop (tryUpdateCond (fun _ => none) (fun _ => none)
        (fun _ => true) (fun _ => some (.other 3))) (fun _ => false) 4 0
      = (some (.other 3), 0 + 1) ∧
    expBackoffLoop (tryUpdateCond (fun _ => none) (fun _ => none)
        (fun _ => true) (fun _ => none)) (fun _ => false) 4 0
      = (none, 0 + 1) ∧
    expBackoffLoop (tryUpdateCond (fun _ => none) (fun _ => some (.other 7))
        (fun _ => true) (fun _ => none)) (fun _ => false) 4 0
      = (some (.other 7), 0 + 1) ∧
    (tryUpdateAttempt none (some (.other 7)) true none).calledUpdate = false := by
  refine ⟨?_, ?_, ?_, ?_, ?_, ?_⟩
  · exact (tryUpdate_classification (fun _ => none) (fun _ => none)
        (fun _ => true) (fun _ => some .conflict) (fun _ => false) 4 0
        (.other 0)).1 (by omega) rfl rfl rfl rfl rfl
  · exact (tryUpdate_classification (fun _ => none) (fun _ => none)
        (fun _ => true) (fun _ => some .conflict) (fun _ => false) 4 0
        (.other 0)).2.1 (by omega) rfl rfl rfl rfl rfl
  · exact (tryUpdate_classification (fun _ => none) (fun _ => none)
        (fun _ => true) (fun _ => some (.other 3)) (fun _ => false) 4 0
        (.other 3)).2.2.1 (by omega) rfl rfl rfl rfl rfl
  · exact (tryUpdate_classification (fun _ => none) (fun _ => none)
        (fun _ => true) (fun _ => none) (fun _ => false) 4 0
        (.other 0)).2.2.2.1 (by omega) rfl rfl rfl rfl
  · exact ((tryUpdate_classification (fun _ => none) (fun _ => some (.other 7))
        (fun _ => true) (fun _ => none) (fun _ => false) 4 0
        (.other 7)).2.2.2.2 (by omega) rfl rfl).1
  · exact ((tryUpdate_classification (fun _ => none) (fun _ => some (.other 7))
        (fun _ => true) (fun _ => none) (fun _ => false) 4 0
        (.other 7)).2.2.2.2 (by omega) rfl rfl).2

/-- Claim C10: if the Get of the object fails on any attempt with any
error (including NotFound), TransformAndUpdate fails immediately with
that error: the attempt neither runs the transform nor issues a write,
and no further attempt is made. -/
theorem tryUpdate_getFailure (getErr transformErr : Nat → Option Err)
    (changed : Nat → Bool) (updateErr : Nat → Option Err)
    (ctxDone : Nat → Bool) (r a : Nat) (e : Err)
    (hr : 0 < r) (hg : getErr a = some e) :
    expBackoffLoop (tryUpdateCond getErr transformErr changed updateErr)
        ctxDone r a = (some e, a + 1) ∧
    (tryUpdateAttempt (getErr a) (transformErr a) (changed a)
        (updateErr a)).ranTransform = false ∧
    (tryUpdateAttempt (getErr a) (transformErr a) (changed a)
        (updateErr a)).calledUpdate = false := by
  have hcond : tryUpdateCond getErr transformErr changed updateErr a
      = (false, some e) := by
    simp [tryUpdateCond, tryUpdateAttempt, hg]
  refine ⟨?_, by simp [tryUpdateAttempt, hg], by simp [tryUpdateAttempt, hg]⟩
  match r, hr with
  | 1, _ => simp [expBackoffLoop, hcond]
  | s + 2, _ => simp [expBackoffLoop, hcond]

theorem tryUpdate_getFailure_witness :
    expBackoffLoop (tryUpdateCond (fun _ => some .notFound) (fun _ => none)
        (fun _ => true) (fun _ => none)) (fun _ => false) 5 0
      = (some .notFound, 0 + 1) ∧
    (tryUpdateAttempt (some .notFound) none true none).ranTransform = false ∧
    (tryUpdateAttempt (some .notFound) none true none).calledUpdate = false :=
  tryUpdate_getFailure (fun _ => some .notFound) (fun _ => none)
    (fun _ => true) (fun _ => none) (fun _ => false) 5 0 .notFound
    (by omega) rfl

/-- Stopping behaviour of retry.OnError: a wrapped-function outcome that is
success or a non-retriable error returns at once. -/
theorem onErrorLoop_stop {σ : Type} (fn : Nat → σ → Option Err × σ)
    (steps a : Nat) (lastErr : Option Err) (s t : σ) (res : Option Err)
    (hf : fn a s = (res, t))
    (hstop : ∀ e, res = some e → isConflict e = false) :
    onErrorLoop fn (steps + 1) a lastErr s = (res, a + 1, t) := by
  match res with
  | none => simp [onErrorLoop, hf]
  | some e => simp [onErrorLoop, hf, hstop e rfl]

/-- Claim C3, counterexample: with the store's Get succeeding and the merge
patch persistently failing with Conflict, EnsureFinalizer and
DeleteFinalizer run the fetch-and-patch cycle five times (the
retry.DefaultRetry budget of the retry.RetryOnConflict wrapper), not
once: the operations are not single-attempt. -/
theorem finalizer_singleAttempt_counterexample :
    (EnsureFinalizer "f" (fun _ => .ok []) (fun _ => some .conflict) []).2.1
      ≠ 1 ∧
    (DeleteFinalizer "f" (fun _ => .ok ["f"]) (fun _ => some .conflict)
        ["f"]).2.1 ≠ 1 := by
  constructor <;> decide

/-- Claim C3 (amended): EnsureFinalizer and DeleteFinalizer wrap their
fetch-and-patch cycle in retry.RetryOnConflict(retry.DefaultRetry, ...):
when every patch attempt results in a stale-token Conflict error, they
retry the cycle internally and fail with that Conflict error only after
exactly five attempts (retry.DefaultRetry's step budget), not after one. -/
theorem finalizer_conflict_retries (name : String)
    (getE getD : Nat → List String) (patchErr : Nat → Option Err)
    (objE objD : List String)
    (hp : ∀ a, patchErr a = some .conflict)
    (hne : ∀ a, containsFinalizer (getE a) name = false)
    (hdl : ∀ a, containsFinalizer (getD a) name = true) :
    ((EnsureFinalizer name (fun a => .ok (getE a)) patchErr objE).1
        = some .conflict ∧
     (EnsureFinalizer name (fun a => .ok (getE a)) patchErr objE).2.1 = 5) ∧
    ((DeleteFinalizer name (fun a => .ok (getD a)) patchErr objD).1
        = some .conflict ∧
     (DeleteFinalizer name (fun a => .ok (getD a)) patchErr objD).2.1 = 5) := by
  constructor
  · have hf : ∀ j t,
        (ensureFinalizerBody name (fun a => .ok (getE a)) patchErr j t).1
          = some .conflict := by
      intro j t
      simp [ensureFinalizerBody, hne, hp]
    have h := onErrorLoop_allConflict _ hf defaultRetrySteps 0 none objE
      (by decide)
    exact ⟨by simpa [EnsureFinalizer, retryOnConflict] using h.1,
      by simpa [EnsureFinalizer, retryOnConflict] using h.2⟩
  · have hf : ∀ j t,
        (deleteFinalizerBody name (fun a => .ok (getD a)) patchErr j t).1
          = some .conflict := by
      intro j t
      simp [deleteFinalizerBody, hdl, hp]
    have h := onErrorLoop_allConflict _ hf defaultRetrySteps 0 none objD
      (by decide)
    exact ⟨by simpa [DeleteFinalizer, retryOnConflict] using h.1,
      by simpa [DeleteFinalizer, retryOnConflict] using h.2⟩

theorem finalizer_conflict_retries_witness :
    ((EnsureFinalizer "f" (fun _ => .ok []) (fun _ => some .conflict) []).1
        = some .conflict ∧
     (EnsureFinalizer "f" (fun _ => .ok []) (fun _ => some .conflict) []).2.1
        = 5) ∧
    ((DeleteFinalizer "f" (fun _ => .ok ["f"]) (fun _ => some .conflict)
        ["f"]).1 = some .conflict ∧
     (DeleteFinalizer "f" (fun _ => .ok ["f"]) (fun _ => some .conflict)
        ["f"]).2.1 = 5) :=
  finalizer_conflict_retries "f" (fun _ => []) (fun _ => ["f"])
    (fun _ => some .conflict) [] ["f"] (fun _ => rfl) (fun _ => rfl)
    (fun _ => rfl)

/-- Claim C9, counterexample: DeleteFinalizer called for a vanished object
(Get reports NotFound) with an in-memory object still carrying the
finalizer proceeds to patch and surfaces the patch's NotFound error
instead of returning no-op success: the tolerance is not independent of
the finalizer list carried by the passed-in object. -/
theorem deleteFinalizer_notFound_counterexample :
    (DeleteFinalizer "f" (fun _ => .error .notFound)
        (fun _ => some .notFound) ["f"]).1 = some .notFound ∧
    (DeleteFinalizer "f" (fun _ => .error .notFound)
        (fun _ => some .notFound) ["f"]).1 ≠ none := by
  constructor <;> decide

/-- Claim C9 (amended): when Get reports NotFound, DeleteFinalizer returns
no-op success after a single attempt provided the in-memory object passed
by the caller does not carry the finalizer; if it still carries it, the
code removes it locally, attempts the merge patch against the vanished
object, and surfaces that patch's (non-conflict) error. -/
theorem deleteFinalizer_notFound (name : String)
    (getRes : Nat → Except Err (List String)) (patchErr : Nat → Option Err)
    (obj : List String) (e : Err)
    (hg : getRes 0 = .error .notFound) :
    (containsFinalizer obj name = false →
      DeleteFinalizer name getRes patchErr obj = (none, 1, obj)) ∧
    (containsFinalizer obj name = true → patchErr 0 = some e →
      isConflict e = false →
      DeleteFinalizer name getRes patchErr obj
        = (some e, 1, removeFinalizer obj name)) := by
  constructor
  · intro hnc
    have hf : deleteFinalizerBody name getRes patchErr 0 obj = (none, obj) := by
      simp [deleteFinalizerBody, hg, hnc]
    have h := onErrorLoop_stop (deleteFinalizerBody name getRes patchErr) 4 0
      none obj obj none hf (fun _ hx => nomatch hx)
    simpa [DeleteFinalizer, retryOnConflict, defaultRetrySteps] using h
  · intro hc hpe hnc
    have hf : deleteFinalizerBody name getRes patchErr 0 obj
        = (some e, removeFinalizer obj name) := by
      simp [deleteFinalizerBody, hg, hc, hpe]
    have h := onErrorLoop_stop (deleteFinalizerBody name getRes patchErr) 4 0
      none obj (removeFinalizer obj name) (some e) hf
      (fun x hx => by cases hx; exact hnc)
    simpa [DeleteFinalizer, retryOnConflict, defaultRetrySteps] using h

theorem deleteFinalizer_notFound_witness :
    (DeleteFinalizer "f" (fun _ => .error .notFound)
        (fun _ => some .notFound) [] = (none, 1, [])) ∧
    (DeleteFinalizer "g" (fun _ => .error .notFound)
        (fun _ => some .notFound) ["g"]
      = (some .notFound, 1, removeFinalizer ["g"] "g")) :=
  ⟨(deleteFinalizer_notFound "f" (fun _ => .error .notFound)
      (fun _ => some .notFound) [] .notFound rfl).1 rfl,
   (deleteFinalizer_notFound "g" (fun _ => .error .notFound)
      (fun _ => some .notFound) ["g"] .notFound rfl).2 (by decide) rfl rfl⟩

/-- Claim C7: TypedCreateOrUpdate returns exactly one of the three
outcomes.  When Get reports not-found, mutate runs and the object is then
created, outcome `created`; when the object is found and mutation leaves
the generic representation deeply equal to the fetched one while
alwaysUpdate is unset, the write is skipped and the outcome is the no-op
result with no error; otherwise Update is called and the outcome is
`updated`. -/
theorem typedCreateOrUpdate_outcomes {α : Type} [DecidableEq α]
    (sn : SchemeNewRes) (convErr : Option Err) (obj0 fetched m : α)
    (alwaysUpdate : Bool) (mutate : α → Except Err α)
    (createErr updateErr : Option Err)
    (hsn : sn ≠ .typedUnsupported) :
    (mutate obj0 = .ok m →
      TypedCreateOrUpdate sn (.error .notFound) convErr obj0 alwaysUpdate
          mutate createErr updateErr
        = ⟨.created, createErr, true, false, m⟩) ∧
    ((sn = .typed → convErr = none) → mutate fetched = .ok m →
      alwaysUpdate = false → m = fetched →
      TypedCreateOrUpdate sn (.ok fetched) convErr obj0 alwaysUpdate
          mutate createErr updateErr
        = ⟨.opNone, none, false, false, m⟩) ∧
    ((sn = .typed → convErr = none) → mutate fetched = .ok m →
      (alwaysUpdate = true ∨ m ≠ fetched) →
      TypedCreateOrUpdate sn (.ok fetched) convErr obj0 alwaysUpdate
          mutate createErr updateErr
        = ⟨.updated, updateErr, false, true, m⟩) := by
  cases sn with
  | typedUnsupported => exact absurd rfl hsn
  | typed =>
    refine ⟨fun hm => by simp [TypedCreateOrUpdate, hm], ?_, ?_⟩
    · intro hcv hm ha he
      subst ha
      have : convErr = none := hcv rfl
      subst this
      simp [TypedCreateOrUpdate, hm, he]
    · intro hcv hm hup
      have : convErr = none := hcv rfl
      subst this
      rcases hup with ha | hne
      · subst ha
        simp [TypedCreateOrUpdate, hm]
      · have hfm : fetched ≠ m := fun hx => hne hx.symm
        simp [TypedCreateOrUpdate, hm, hfm]
  | unregistered =>
    refine ⟨fun hm => by simp [TypedCreateOrUpdate, hm], ?_, ?_⟩
    · intro _ hm ha he
      subst ha
      simp [TypedCreateOrUpdate, hm, he]
    · intro _ hm hup
      rcases hup with ha | hne
      · subst ha
        simp [TypedCreateOrUpdate, hm]
      · have hfm : fetched ≠ m := fun hx => hne hx.symm
        simp [TypedCreateOrUpdate, hm, hfm]

theorem typedCreateOrUpdate_outcomes_witness :
    (TypedCreateOrUpdate .typed (.error .notFound) none (3 : Nat) false
        (fun v => .ok (v + 1)) none none
      = ⟨.created, none, true, false, 4⟩) ∧
    (TypedCreateOrUpdate .typed (.ok (3 : Nat)) none 0 false
        (fun v => .ok v) none none
      = ⟨.opNone, none, false, false, 3⟩) ∧
    (TypedCreateOrUpdate .typed (.ok (3 : Nat)) none 0 false
        (fun v => .ok (v + 1)) none none
      = ⟨.updated, none, false, true, 4⟩) :=
  ⟨(typedCreateOrUpdate_outcomes .typed none 3 0 4 false
      (fun v => .ok (v + 1)) none none (by decide)).1 rfl,
   (typedCreateOrUpdate_outcomes .typed none 0 3 3 false
      (fun v => .ok v) none none (by decide)).2.1 (fun _ => rfl) rfl rfl rfl,
   (typedCreateOrUpdate_outcomes .typed none 0 3 4 false
      (fun v => .ok (v + 1)) none none (by decide)).2.2 (fun _ => rfl) rfl
     (Or.inr (by decide))⟩

/-- Claim C1: after one successful Reconcile call (secret fetched, parent
resources listed, marker write succeeding), the protective marker is
present on the secret iff at least one ManagedResource in the same
namespace has the filter's class and references the secret's name; the
marker is added exactly when referenced and absent, removed exactly when
unreferenced and present, and nothing is written when already
converged. -/
theorem reconcile_convergence (flt : ClassFilter) (ns name : String)
    (fins : List String) (mrs : List ManagedResource) :
    (SecretReconcile flt ns name (.ok fins) (.ok mrs) none).res = ⟨0, none⟩ ∧
    containsFinalizer
        (SecretReconcile flt ns name (.ok fins) (.ok mrs) none).finalizers
        flt.finalizerName
      = referenced flt ns name mrs ∧
    (containsFinalizer fins flt.finalizerName = referenced flt ns name mrs →
      (SecretReconcile flt ns name (.ok fins) (.ok mrs) none).wrote = false ∧
      (SecretReconcile flt ns name (.ok fins) (.ok mrs) none).finalizers
        = fins) ∧
    (referenced flt ns name mrs = true →
      containsFinalizer fins flt.finalizerName = false →
      (SecretReconcile flt ns name (.ok fins) (.ok mrs) none).finalizers
        = addFinalizer fins flt.finalizerName) ∧
    (referenced flt ns name mrs = false →
      containsFinalizer fins flt.finalizerName = true →
      (SecretReconcile flt ns name (.ok fins) (.ok mrs) none).finalizers
        = removeFinalizer fins flt.finalizerName) := by
  cases hre : referenced flt ns name mrs <;>
    cases hpr : containsFinalizer fins flt.finalizerName <;>
      simp [SecretReconcile, hre, hpr, contains_addFinalizer,
        contains_removeFinalizer]

theorem reconcile_convergence_witness :
    ((SecretReconcile ⟨"seed", "seed-fin"⟩ "mr-ns" "mr-secret" (.ok [])
        (.ok [⟨"mr-ns", some "seed", ["mr-secret"]⟩]) none).res
      = ⟨0, none⟩ ∧
     containsFinalizer
        (SecretReconcile ⟨"seed", "seed-fin"⟩ "mr-ns" "mr-secret" (.ok [])
          (.ok [⟨"mr-ns", some "seed", ["mr-secret"]⟩]) none).finalizers
        "seed-fin"
      = referenced ⟨"seed", "seed-fin"⟩ "mr-ns" "mr-secret"
          [⟨"mr-ns", some "seed", ["mr-secret"]⟩]) ∧
    (SecretReconcile ⟨"seed", "seed-fin"⟩ "mr-ns" "mr-secret" (.ok [])
        (.ok [⟨"mr-ns", some "seed", ["mr-secret"]⟩]) none).finalizers
      = addFinalizer [] "seed-fin" := by
  have h := reconcile_convergence ⟨"seed", "seed-fin"⟩ "mr-ns" "mr-secret" []
    [⟨"mr-ns", some "seed", ["mr-secret"]⟩]
  exact ⟨⟨h.1, h.2.1⟩, h.2.2.2.1 (by decide) (by decide)⟩

/-- Claim C8: whenever the marker mutation (add or remove) of Reconcile
fails, Reconcile returns that error together with a result carrying a
fixed requeue delay of five seconds, rather than retrying internally. -/
theorem reconcile_mutationFailure (flt : ClassFilter) (ns name : String)
    (fins : List String) (mrs : List ManagedResource) (e : Err)
    (h : containsFinalizer fins flt.finalizerName
      ≠ referenced flt ns name mrs) :
    SecretReconcile flt ns name (.ok fins) (.ok mrs) (some e)
      = ⟨⟨5, some e⟩, fins, true⟩ := by
  cases hre : referenced flt ns name mrs <;>
    cases hpr : containsFinalizer fins flt.finalizerName <;>
      first
        | (exfalso; rw [hre, hpr] at h; exact h rfl)
        | simp [SecretReconcile, hre, hpr]

theorem reconcile_mutationFailure_witness :
    SecretReconcile ⟨"seed", "seed-fin"⟩ "mr-ns" "mr-secret"
        (.ok ["seed-fin"]) (.ok [⟨"mr-ns", some "other", ["mr-secret"]⟩])
        (some (.other 7))
      = ⟨⟨5, some (.other 7)⟩, ["seed-fin"], true⟩ :=
  reconcile_mutationFailure ⟨"seed", "seed-fin"⟩ "mr-ns" "mr-secret"
    ["seed-fin"] [⟨"mr-ns", some "other", ["mr-secret"]⟩] (.other 7)
    (by decide)

end GRM
